import Mathlib

/-!
Verification development for the Recipe-Generator service.

The repository ships a React frontend (under `frontend/src`) plus design
documents describing a Flask backend (`Foodimg2Ing`): JWT auth, a
rate-limited `/predict` inference route, and a SQL store of recipes,
ratings and favorites.  The backend domain logic itself is not part of
the source tree here, so the domain components (RatingAggregator,
FavoriteIndex, RecipeStore, TokenService login, RateLimiter) are
modelled from the specification; the frontend logic (inference-result
classification in `Home.jsx`, the history cache, the rating display in
`RecipeDetail.jsx`) is embedded directly from the JSX source.
-/

namespace RecipeGen

/-! ## Data model

Mirrors the SQL schema in `documents/PHASE2A_AUTH.md`: `users`,
`recipes` (with denormalized `average_rating` / `rating_count`),
`ratings` (UNIQUE(recipe_id, user_id)), `favorites`
(UNIQUE(user_id, recipe_id)). -/

structure Rating where
  recipeId : Nat
  userId : Nat
  value : Nat
  comment : Option String
  deriving DecidableEq, Repr

structure Recipe where
  id : Nat
  ownerId : Nat
  title : String
  ingredients : List String
  instructions : List String
  imageUrl : Option String
  isPublic : Bool
  avgRating : Option ℚ
  ratingCount : Nat
  deriving DecidableEq, Repr

/-- The shared relational store: recipes, ratings, and favorite
membership rows `(userId, recipeId)`. -/
structure DB where
  recipes : List Recipe
  ratings : List Rating
  favorites : List (Nat × Nat)
  deriving DecidableEq, Repr

/-! ## RatingAggregator

Modelled from the spec: the backend file `Foodimg2Ing/routes.py` /
`models.py` implementing `rate` and `unrate` is not under `src/`.
Spec §4.5: upsert the (recipe, user) Rating row, then recompute
`average_rating` and `rating_count` from a fresh scan of all current
Rating rows and persist both on the Recipe in the same transaction. -/

/-- All currently-live rating rows for a recipe. -/
def ratingsFor (rs : List Rating) (rid : Nat) : List Rating :=
  rs.filter (fun rt => rt.recipeId == rid)

/-- Fresh-scan rating count for a recipe. -/
def aggCount (rs : List Rating) (rid : Nat) : Nat :=
  (ratingsFor rs rid).length

/-- Fresh-scan sum of rating values for a recipe. -/
def aggSum (rs : List Rating) (rid : Nat) : ℚ :=
  ((ratingsFor rs rid).map (fun rt => (rt.value : ℚ))).sum

/-- Fresh-scan arithmetic mean; undefined (`none`) when there are no
ratings. -/
def aggAvg (rs : List Rating) (rid : Nat) : Option ℚ :=
  if aggCount rs rid = 0 then none
  else some (aggSum rs rid / (aggCount rs rid : ℚ))

/-- Persist the recomputed aggregate fields on the recipe row. -/
def setAggregate (db : DB) (rid : Nat) : DB :=
  { db with recipes := db.recipes.map (fun r =>
      if r.id == rid then
        { r with avgRating := aggAvg db.ratings rid,
                 ratingCount := aggCount db.ratings rid }
      else r) }

/-- Upsert of the (recipe, user) rating row: overwrite value/comment in
place when a row exists, insert otherwise — never a second row. -/
def upsertRating (db : DB) (rid uid v : Nat) (c : Option String) : DB :=
  if db.ratings.any (fun rt => rt.recipeId == rid && rt.userId == uid) then
    { db with ratings := db.ratings.map (fun rt =>
        if rt.recipeId == rid && rt.userId == uid then
          { rt with value := v, comment := c }
        else rt) }
  else
    { db with ratings := db.ratings ++ [⟨rid, uid, v, c⟩] }

/-- `rate`: upsert then recompute aggregates, one transaction. -/
def rate (db : DB) (rid uid v : Nat) (c : Option String) : DB :=
  setAggregate (upsertRating db rid uid v c) rid

/-- Remove the caller's rating row for the recipe. -/
def removeRating (db : DB) (rid uid : Nat) : DB :=
  { db with ratings := db.ratings.filter (fun rt =>
      !(rt.recipeId == rid && rt.userId == uid)) }

/-- `unrate`: delete the row then recompute aggregates. -/
def unrate (db : DB) (rid uid : Nat) : DB :=
  setAggregate (removeRating db rid uid) rid

/-- A step of the rating workload: rate or unrate. -/
inductive AggOp
  | rateOp (rid uid v : Nat) (c : Option String)
  | unrateOp (rid uid : Nat)
  deriving DecidableEq, Repr

def applyAggOp (db : DB) : AggOp → DB
  | .rateOp rid uid v c => rate db rid uid v c
  | .unrateOp rid uid => unrate db rid uid

def applyAggOps (db : DB) (ops : List AggOp) : DB :=
  ops.foldl applyAggOp db

/-- The aggregate-consistency invariant: every stored
`average_rating` / `rating_count` equals the fresh scan over the
currently-live Rating rows. -/
def AggInv (db : DB) : Prop :=
  ∀ r ∈ db.recipes,
    r.avgRating = aggAvg db.ratings r.id ∧
    r.ratingCount = aggCount db.ratings r.id

instance (db : DB) : Decidable (AggInv db) :=
  List.decidableBAll _ _

/-- Lookup a recipe row by id. -/
def findRecipe (db : DB) (rid : Nat) : Option Recipe :=
  db.recipes.find? (fun r => r.id == rid)

/-! ### List helper lemmas -/

theorem filter_map_eq_filter {α : Type _} (g : α → α) (p : α → Bool)
    (hp : ∀ a, p (g a) = p a) (hfix : ∀ a, p a = true → g a = a) :
    ∀ l : List α, (l.map g).filter p = l.filter p := by
  intro l
  induction l with
  | nil => rfl
  | cons x xs ih =>
    cases hx : p x with
    | true =>
      have hgx : p (g x) = true := by rw [hp]; exact hx
      simp [List.filter_cons, hgx, hx, hfix x hx, ih]
    | false =>
      have hgx : p (g x) = false := by rw [hp]; exact hx
      simp [List.filter_cons, hgx, hx, ih]

theorem filter_filter_of_imp {α : Type _} (p q : α → Bool)
    (h : ∀ a, p a = true → q a = true) :
    ∀ l : List α, (l.filter q).filter p = l.filter p := by
  intro l
  induction l with
  | nil => rfl
  | cons x xs ih =>
    cases hq : q x with
    | true =>
      cases hx : p x with
      | true => simp [List.filter_cons, hq, hx, ih]
      | false => simp [List.filter_cons, hq, hx, ih]
    | false =>
      have hx : p x = false := by
        cases hpx : p x
        · rfl
        · exact absurd (h x hpx) (by simp [hq])
      simp [List.filter_cons, hq, hx, ih]

/-! ### Aggregate scans touch only the ratings of their recipe -/

theorem aggCount_congr {rs rs' : List Rating} {rid : Nat}
    (h : ratingsFor rs rid = ratingsFor rs' rid) :
    aggCount rs rid = aggCount rs' rid := by
  unfold aggCount; rw [h]

theorem aggAvg_congr {rs rs' : List Rating} {rid : Nat}
    (h : ratingsFor rs rid = ratingsFor rs' rid) :
    aggAvg rs rid = aggAvg rs' rid := by
  unfold aggAvg aggSum
  rw [aggCount_congr h, h]

theorem upsertRating_recipes (db : DB) (rid uid v : Nat) (c : Option String) :
    (upsertRating db rid uid v c).recipes = db.recipes := by
  unfold upsertRating
  split <;> rfl

theorem ratingsFor_upsert_ne (db : DB) (rid uid v : Nat) (c : Option String)
    (rid' : Nat) (h : rid' ≠ rid) :
    ratingsFor (upsertRating db rid uid v c).ratings rid' = ratingsFor db.ratings rid' := by
  unfold upsertRating ratingsFor
  split
  · apply filter_map_eq_filter
    · intro rt
      by_cases hk : (rt.recipeId == rid && rt.userId == uid) = true <;> simp [hk]
    · intro rt hrt
      have hrid : rt.recipeId = rid' := by simpa using hrt
      simp [hrid, h]
  · simp only [List.filter_append]
    have hnew : ((Rating.mk rid uid v c).recipeId == rid') = false := by
      simp
      exact fun hx => h hx.symm
    simp [hnew]

theorem ratingsFor_remove_ne (db : DB) (rid uid : Nat)
    (rid' : Nat) (h : rid' ≠ rid) :
    ratingsFor (removeRating db rid uid).ratings rid' = ratingsFor db.ratings rid' := by
  unfold removeRating ratingsFor
  apply filter_filter_of_imp
  intro rt hrt
  have hrid : rt.recipeId = rid' := by simpa using hrt
  simp [hrid, h]

/-! ### The aggregate invariant is preserved by rate and unrate -/

theorem aggInv_setAggregate_of (db0 db : DB) (rid : Nat)
    (hrec : db.recipes = db0.recipes) (hinv : AggInv db0)
    (hoth : ∀ rid', rid' ≠ rid →
      ratingsFor db.ratings rid' = ratingsFor db0.ratings rid') :
    AggInv (setAggregate db rid) := by
  unfold AggInv setAggregate
  intro r' hr'
  simp only [List.mem_map] at hr'
  obtain ⟨r, hr, rfl⟩ := hr'
  by_cases hid : (r.id == rid) = true
  · have hid' : r.id = rid := by simpa using hid
    simp [hid, hid']
  · have hne : r.id ≠ rid := by simpa using hid
    have hmem : r ∈ db0.recipes := hrec ▸ hr
    have hbase := hinv r hmem
    simp only [hid, if_false, Bool.false_eq_true]
    rw [aggAvg_congr (hoth r.id hne), aggCount_congr (hoth r.id hne)]
    exact hbase

theorem aggInv_rate (db : DB) (rid uid v : Nat) (c : Option String)
    (hinv : AggInv db) : AggInv (rate db rid uid v c) := by
  unfold rate
  exact aggInv_setAggregate_of db (upsertRating db rid uid v c) rid
    (upsertRating_recipes db rid uid v c) hinv
    (fun rid' hne => ratingsFor_upsert_ne db rid uid v c rid' hne)

theorem aggInv_unrate (db : DB) (rid uid : Nat)
    (hinv : AggInv db) : AggInv (unrate db rid uid) := by
  unfold unrate
  exact aggInv_setAggregate_of db (removeRating db rid uid) rid rfl hinv
    (fun rid' hne => ratingsFor_remove_ne db rid uid rid' hne)

theorem aggInv_applyAggOps (db : DB) (ops : List AggOp)
    (hinv : AggInv db) : AggInv (applyAggOps db ops) := by
  induction ops generalizing db with
  | nil => exact hinv
  | cons op ops ih =>
    cases op with
    | rateOp rid uid v c => exact ih _ (aggInv_rate db rid uid v c hinv)
    | unrateOp rid uid => exact ih _ (aggInv_unrate db rid uid hinv)

/-! ### Concrete five-rater scenario from the spec -/

def demoRecipe : Recipe :=
  { id := 1, ownerId := 0, title := "Pasta", ingredients := ["noodles"],
    instructions := ["boil"], imageUrl := none, isPublic := true,
    avgRating := none, ratingCount := 0 }

def demoDB : DB :=
  { recipes := [demoRecipe], ratings := [], favorites := [] }

/-- Four users rate 5, then a fifth user rates 1. -/
def demoOps : List AggOp :=
  [.rateOp 1 1 5 none, .rateOp 1 2 5 none, .rateOp 1 3 5 none,
   .rateOp 1 4 5 none, .rateOp 1 5 1 none]

/-- Claim C1: after any sequence of rate/unrate operations from a
consistent state, every recipe's stored `average_rating` equals the
arithmetic mean of its currently-live Rating values and `rating_count`
their number; concretely, four ratings of 5 followed by a rating of 1
yield stored average 21/5 = 4.2 and count 5. -/
theorem C1_aggregate_mean (db : DB) (ops : List AggOp) (hinv : AggInv db) :
    AggInv (applyAggOps db ops) ∧
    findRecipe (applyAggOps demoDB demoOps) 1 =
      some { demoRecipe with avgRating := some ((21 : ℚ) / 5), ratingCount := 5 } := by
  refine ⟨aggInv_applyAggOps db ops hinv, ?_⟩
  norm_num [demoDB, demoOps, demoRecipe, applyAggOps, applyAggOp, rate,
    upsertRating, setAggregate, findRecipe, aggAvg, aggCount, aggSum,
    ratingsFor, List.filter, List.find?]

/-- Witness for C1 at the concrete five-rater scenario. -/
theorem C1_aggregate_mean_witness :
    AggInv (applyAggOps demoDB demoOps) ∧
    findRecipe (applyAggOps demoDB demoOps) 1 =
      some { demoRecipe with avgRating := some ((21 : ℚ) / 5), ratingCount := 5 } :=
  C1_aggregate_mean demoDB demoOps (by decide)

/-! ## Claim C2: repeat rating overwrites in place -/

/-- Number of Rating rows for one (recipe, user) key. -/
def ratingKeyCount (rs : List Rating) (rid uid : Nat) : Nat :=
  (rs.filter (fun rt => rt.recipeId == rid && rt.userId == uid)).length

/-- The `UNIQUE(recipe_id, user_id)` constraint of the ratings table. -/
def UniqueRatingKeys (rs : List Rating) : Prop :=
  rs.Pairwise (fun a b => ¬(a.recipeId = b.recipeId ∧ a.userId = b.userId))

/-- The `rating_count` stored on a recipe row, when the row exists. -/
def storedCount (db : DB) (rid : Nat) : Option Nat :=
  (findRecipe db rid).map (fun r => r.ratingCount)

theorem length_filter_map {α : Type _} (g : α → α) (p : α → Bool)
    (hp : ∀ a, p (g a) = p a) :
    ∀ l : List α, ((l.map g).filter p).length = (l.filter p).length := by
  intro l
  induction l with
  | nil => rfl
  | cons x xs ih =>
    cases hx : p x with
    | true =>
      have hgx : p (g x) = true := by rw [hp]; exact hx
      simp [List.filter_cons, hgx, hx, ih]
    | false =>
      have hgx : p (g x) = false := by rw [hp]; exact hx
      simp [List.filter_cons, hgx, hx, ih]

theorem find?_map_of_id_eq (f : Recipe → Recipe) (hf : ∀ r, (f r).id = r.id)
    (rid : Nat) :
    ∀ l : List Recipe,
      (l.map f).find? (fun r => r.id == rid) =
        (l.find? (fun r => r.id == rid)).map f := by
  intro l
  induction l with
  | nil => rfl
  | cons x xs ih =>
    cases hx : (x.id == rid) with
    | true =>
      have hfx : ((f x).id == rid) = true := by rw [hf]; exact hx
      simp [List.find?, hfx, hx]
    | false =>
      have hfx : ((f x).id == rid) = false := by rw [hf]; exact hx
      simp [List.find?, hfx, hx, ih]

theorem ratingKeyCount_le_one (rs : List Rating) (rid uid : Nat)
    (hkeys : UniqueRatingKeys rs) :
    ratingKeyCount rs rid uid ≤ 1 := by
  induction rs with
  | nil => simp [ratingKeyCount]
  | cons x xs ih =>
    rw [UniqueRatingKeys, List.pairwise_cons] at hkeys
    obtain ⟨hx, hxs⟩ := hkeys
    cases hpx : (x.recipeId == rid && x.userId == uid) with
    | false =>
      unfold ratingKeyCount at ih ⊢
      simp only [List.filter_cons, hpx, Bool.false_eq_true, if_false]
      exact ih hxs
    | true =>
      have hxk : x.recipeId = rid ∧ x.userId = uid := by simpa using hpx
      have hzero :
          xs.filter (fun rt => rt.recipeId == rid && rt.userId == uid) = [] := by
        rw [List.filter_eq_nil_iff]
        intro a ha hpa
        have hak : a.recipeId = rid ∧ a.userId = uid := by simpa using hpa
        exact hx a ha ⟨hxk.1.trans hak.1.symm, hxk.2.trans hak.2.symm⟩
      unfold ratingKeyCount
      simp [List.filter_cons, hpx, hzero]

theorem upsert_ratings_replace (db : DB) (rid uid v : Nat) (c : Option String)
    (hany : (db.ratings.any fun rt => rt.recipeId == rid && rt.userId == uid) = true) :
    (upsertRating db rid uid v c).ratings =
      db.ratings.map (fun rt =>
        if rt.recipeId == rid && rt.userId == uid then
          { rt with value := v, comment := c }
        else rt) := by
  unfold upsertRating
  rw [if_pos hany]

/-- Claim C2: when a Rating by the same user for the same recipe already
exists, `rate` overwrites in place: afterwards there is exactly one row
for the (recipe, user) key, the total number of Rating rows is
unchanged, and the recipe's stored `rating_count` is unchanged. -/
theorem C2_repeat_rating_overwrites (db : DB) (rid uid v : Nat) (c : Option String)
    (hkeys : UniqueRatingKeys db.ratings) (hinv : AggInv db)
    (hex : ∃ rt ∈ db.ratings, rt.recipeId = rid ∧ rt.userId = uid) :
    ratingKeyCount (rate db rid uid v c).ratings rid uid = 1 ∧
    (rate db rid uid v c).ratings.length = db.ratings.length ∧
    storedCount (rate db rid uid v c) rid = storedCount db rid := by
  obtain ⟨rt0, hrt0, hk0⟩ := hex
  have hany : (db.ratings.any fun rt => rt.recipeId == rid && rt.userId == uid) = true := by
    rw [List.any_eq_true]
    exact ⟨rt0, hrt0, by simp [hk0.1, hk0.2]⟩
  have hratings : (rate db rid uid v c).ratings =
      db.ratings.map (fun rt =>
        if rt.recipeId == rid && rt.userId == uid then
          { rt with value := v, comment := c }
        else rt) := by
    show (upsertRating db rid uid v c).ratings = _
    exact upsert_ratings_replace db rid uid v c hany
  have hkeyeq : ∀ rt : Rating,
      ((if rt.recipeId == rid && rt.userId == uid then
          { rt with value := v, comment := c }
        else rt) : Rating).recipeId = rt.recipeId ∧
      ((if rt.recipeId == rid && rt.userId == uid then
          { rt with value := v, comment := c }
        else rt) : Rating).userId = rt.userId := by
    intro rt
    by_cases hk : (rt.recipeId == rid && rt.userId == uid) = true <;> simp [hk]
  have hcount_pres : ratingKeyCount (rate db rid uid v c).ratings rid uid =
      ratingKeyCount db.ratings rid uid := by
    rw [hratings]
    unfold ratingKeyCount
    apply length_filter_map
    intro a
    rw [(hkeyeq a).1, (hkeyeq a).2]
  have hone : ratingKeyCount db.ratings rid uid = 1 := by
    refine le_antisymm (ratingKeyCount_le_one db.ratings rid uid hkeys) ?_
    have hmem : rt0 ∈ db.ratings.filter
        (fun rt => rt.recipeId == rid && rt.userId == uid) :=
      List.mem_filter.mpr ⟨hrt0, by simp [hk0.1, hk0.2]⟩
    exact List.length_pos.mpr (List.ne_nil_of_mem hmem)
  refine ⟨hcount_pres.trans hone, by rw [hratings]; simp, ?_⟩
  have hrec : (rate db rid uid v c).recipes =
      db.recipes.map (fun r =>
        if r.id == rid then
          { r with avgRating := aggAvg (upsertRating db rid uid v c).ratings rid,
                   ratingCount := aggCount (upsertRating db rid uid v c).ratings rid }
        else r) := by
    show (setAggregate (upsertRating db rid uid v c) rid).recipes = _
    unfold setAggregate
    rw [upsertRating_recipes]
  have haggc : aggCount (upsertRating db rid uid v c).ratings rid =
      aggCount db.ratings rid := by
    rw [upsert_ratings_replace db rid uid v c hany]
    unfold aggCount ratingsFor
    apply length_filter_map
    intro a
    rw [(hkeyeq a).1]
  unfold storedCount findRecipe
  rw [hrec, find?_map_of_id_eq _ (fun r => by
    by_cases hk : (r.id == rid) = true <;> simp [hk]) rid]
  cases hfind : db.recipes.find? (fun r => r.id == rid) with
  | none => simp
  | some r =>
    have hpr := List.find?_some hfind
    have hrid : r.id = rid := by simpa using hpr
    have hmem : r ∈ db.recipes := List.mem_of_find?_eq_some hfind
    have hstore := (hinv r hmem).2
    simp [hpr, haggc, hstore, hrid]

/-- Demo store for the C2 witness: one recipe already rated once. -/
def c2DB : DB :=
  { recipes := [{ id := 1, ownerId := 0, title := "Soup", ingredients := ["water"],
                  instructions := ["heat"], imageUrl := none, isPublic := true,
                  avgRating := some 4, ratingCount := 1 }],
    ratings := [⟨1, 7, 4, none⟩], favorites := [] }

/-- Witness for C2: user 7 re-rates recipe 1. -/
theorem C2_repeat_rating_overwrites_witness :
    ratingKeyCount (rate c2DB 1 7 2 none).ratings 1 7 = 1 ∧
    (rate c2DB 1 7 2 none).ratings.length = c2DB.ratings.length ∧
    storedCount (rate c2DB 1 7 2 none) 1 = storedCount c2DB 1 :=
  C2_repeat_rating_overwrites c2DB 1 7 2 none
    (by simp [UniqueRatingKeys, c2DB])
    (by simp [AggInv, aggAvg, aggCount, aggSum, ratingsFor, c2DB])
    ⟨⟨1, 7, 4, none⟩, by simp [c2DB], rfl, rfl⟩

/-! ## FavoriteIndex

Modelled from the spec: the backend favorite endpoints are not under
`src/`.  Spec §4.6: check membership, then insert or delete the single
row and return the resulting state; the `UNIQUE(user_id, recipe_id)`
constraint backs the single-row invariant. -/

def toggleFavorite (db : DB) (uid rid : Nat) : DB × Bool :=
  if db.favorites.any (fun f => f.1 == uid && f.2 == rid) then
    ({ db with favorites := db.favorites.filter (fun f => !(f.1 == uid && f.2 == rid)) },
     false)
  else
    ({ db with favorites := db.favorites ++ [(uid, rid)] }, true)

def applyToggles (db : DB) (ks : List (Nat × Nat)) : DB :=
  ks.foldl (fun d k => (toggleFavorite d k.1 k.2).1) db

/-- Number of Favorite rows for one (user, recipe) key. -/
def favCount (l : List (Nat × Nat)) (uid rid : Nat) : Nat :=
  (l.filter (fun f => f.1 == uid && f.2 == rid)).length

/-- Number of toggles aimed at one (user, recipe) key in a workload. -/
def keyOccs (ks : List (Nat × Nat)) (uid rid : Nat) : Nat :=
  (ks.filter (fun k => k.1 == uid && k.2 == rid)).length

theorem any_iff_filter_pos {α : Type _} (p : α → Bool) (l : List α) :
    (l.any p = true) ↔ 0 < (l.filter p).length := by
  rw [List.any_eq_true]
  constructor
  · rintro ⟨x, hx, hp⟩
    exact List.length_pos.mpr (List.ne_nil_of_mem (List.mem_filter.mpr ⟨hx, hp⟩))
  · intro h
    obtain ⟨x, hx⟩ := List.exists_mem_of_length_pos h
    have hm := List.mem_filter.mp hx
    exact ⟨x, hm.1, hm.2⟩

theorem mem_iff_favCount_pos (l : List (Nat × Nat)) (uid rid : Nat) :
    (uid, rid) ∈ l ↔ 0 < favCount l uid rid := by
  unfold favCount
  constructor
  · intro h
    exact List.length_pos.mpr (List.ne_nil_of_mem (List.mem_filter.mpr ⟨h, by simp⟩))
  · intro h
    obtain ⟨x, hx⟩ := List.exists_mem_of_length_pos h
    have hm := List.mem_filter.mp hx
    have hxk : x.1 = uid ∧ x.2 = rid := by simpa using hm.2
    have hxx : x = (uid, rid) := by
      obtain ⟨xa, xb⟩ := x
      simp only at hxk
      rw [hxk.1, hxk.2]
    rw [← hxx]
    exact hm.1

theorem favCount_toggle_self (db : DB) (uid rid : Nat)
    (h : favCount db.favorites uid rid ≤ 1) :
    favCount (toggleFavorite db uid rid).1.favorites uid rid =
      (favCount db.favorites uid rid + 1) % 2 := by
  unfold toggleFavorite
  by_cases hany : (db.favorites.any fun f => f.1 == uid && f.2 == rid) = true
  · rw [if_pos hany]
    have hzero : (db.favorites.filter (fun f => !(f.1 == uid && f.2 == rid))).filter
        (fun f => f.1 == uid && f.2 == rid) = [] := by
      rw [List.filter_eq_nil_iff]
      intro a ha hpa
      have hq := (List.mem_filter.mp ha).2
      simp [hpa] at hq
    have hpos : 0 < favCount db.favorites uid rid := (any_iff_filter_pos _ _).mp hany
    have h1 : favCount db.favorites uid rid = 1 := le_antisymm h hpos
    unfold favCount at h1 ⊢
    simp only
    rw [hzero, h1]
    simp
  · rw [if_neg hany]
    have hzero : favCount db.favorites uid rid = 0 := by
      by_contra hne
      exact hany ((any_iff_filter_pos _ _).mpr (by unfold favCount at hne; omega))
    unfold favCount at hzero ⊢
    simp only
    rw [List.filter_append, List.length_append, hzero]
    simp

theorem favCount_toggle_other (db : DB) (uid rid u2 r2 : Nat)
    (h : ¬(u2 = uid ∧ r2 = rid)) :
    favCount (toggleFavorite db u2 r2).1.favorites uid rid =
      favCount db.favorites uid rid := by
  unfold toggleFavorite
  by_cases hany : (db.favorites.any fun f => f.1 == u2 && f.2 == r2) = true
  · rw [if_pos hany]
    unfold favCount
    simp only
    rw [filter_filter_of_imp]
    intro a hpa
    have hak : a.1 = uid ∧ a.2 = rid := by simpa using hpa
    simp only [Bool.not_eq_true', Bool.and_eq_false_iff]
    rw [hak.1, hak.2]
    by_cases hu : uid = u2
    · right
      simp only [beq_eq_false_iff_ne, ne_eq]
      intro hr
      exact h ⟨hu.symm, hr.symm⟩
    · left
      simp only [beq_eq_false_iff_ne, ne_eq]
      intro hx
      exact hu hx
  · rw [if_neg hany]
    unfold favCount
    simp only
    rw [List.filter_append]
    have hnew : (([(u2, r2)] : List (Nat × Nat)).filter
        (fun f => f.1 == uid && f.2 == rid)) = [] := by
      simp only [List.filter_cons, List.filter_nil]
      have : ((u2, r2).1 == uid && (u2, r2).2 == rid) = false := by
        simp only [Bool.and_eq_false_iff, beq_eq_false_iff_ne, ne_eq]
        by_cases hu : u2 = uid
        · right; intro hr; exact h ⟨hu, hr⟩
        · left; exact hu
      rw [this]
      simp
    rw [hnew]
    simp

theorem favCount_applyToggles (ks : List (Nat × Nat)) (uid rid : Nat) :
    ∀ db : DB, favCount db.favorites uid rid ≤ 1 →
      favCount (applyToggles db ks).favorites uid rid =
        (favCount db.favorites uid rid + keyOccs ks uid rid) % 2 := by
  induction ks with
  | nil =>
    intro db h
    have : keyOccs [] uid rid = 0 := rfl
    rw [this]
    show favCount db.favorites uid rid = _
    omega
  | cons k ks ih =>
    obtain ⟨ka, kb⟩ := k
    intro db h
    cases hk : (ka == uid && kb == rid) with
    | true =>
      have hkey : ka = uid ∧ kb = rid := by simpa using hk
      obtain ⟨rfl, rfl⟩ := hkey
      have hstep := favCount_toggle_self db ka kb h
      have hle : favCount (toggleFavorite db ka kb).1.favorites ka kb ≤ 1 := by
        rw [hstep]; omega
      show favCount (applyToggles (toggleFavorite db ka kb).1 ks).favorites ka kb = _
      rw [ih _ hle, hstep]
      have hocc : keyOccs ((ka, kb) :: ks) ka kb = keyOccs ks ka kb + 1 := by
        unfold keyOccs
        simp [List.filter_cons]
      rw [hocc]
      omega
    | false =>
      have hne : ¬(ka = uid ∧ kb = rid) := by
        rintro ⟨rfl, rfl⟩
        simp at hk
      have hstep := favCount_toggle_other db uid rid ka kb hne
      have hle : favCount (toggleFavorite db ka kb).1.favorites uid rid ≤ 1 := by
        rw [hstep]; exact h
      show favCount (applyToggles (toggleFavorite db ka kb).1 ks).favorites uid rid = _
      rw [ih _ hle, hstep]
      have hocc : keyOccs ((ka, kb) :: ks) uid rid = keyOccs ks uid rid := by
        unfold keyOccs
        simp [List.filter_cons, hk]
      rw [hocc]

/-- Claim C3: starting from the unfavorited state, any interleaved
toggle workload leaves (U, R) favorited exactly when the number of
toggles aimed at (U, R) is odd, and there is never more than one
Favorite row for (U, R). -/
theorem C3_favorite_toggle_parity (db : DB) (uid rid : Nat) (ks : List (Nat × Nat))
    (hstart : (uid, rid) ∉ db.favorites) :
    (((uid, rid) ∈ (applyToggles db ks).favorites) ↔ Odd (keyOccs ks uid rid)) ∧
    favCount (applyToggles db ks).favorites uid rid ≤ 1 := by
  have h0 : favCount db.favorites uid rid = 0 := by
    by_contra hne
    exact hstart ((mem_iff_favCount_pos _ _ _).mpr (by omega))
  have hfinal := favCount_applyToggles ks uid rid db (by omega)
  rw [h0] at hfinal
  constructor
  · rw [mem_iff_favCount_pos, hfinal, Nat.odd_iff]
    omega
  · rw [hfinal]
    omega

/-- Witness for C3: three toggles by user 1 on recipe 2, interleaved
with a toggle by user 3, leave (1, 2) favorited with a single row. -/
theorem C3_favorite_toggle_parity_witness :
    (((1, 2) ∈ (applyToggles ⟨[], [], []⟩
        [(1, 2), (3, 2), (1, 2), (1, 2)]).favorites) ↔
      Odd (keyOccs [(1, 2), (3, 2), (1, 2), (1, 2)] 1 2)) ∧
    favCount (applyToggles ⟨[], [], []⟩
        [(1, 2), (3, 2), (1, 2), (1, 2)]).favorites 1 2 ≤ 1 :=
  C3_favorite_toggle_parity ⟨[], [], []⟩ 1 2 [(1, 2), (3, 2), (1, 2), (1, 2)]
    (by simp)

/-! ## Inference-result classification, from `frontend/src/components/Home.jsx`

`handleUpload` inspects the `/predict` response: a response whose first
title is the sentinel string "Not a valid recipe!" is rejected with a
toast, one whose first title is "Not a valid food image!" likewise;
every other response is treated as a successful recipe (rendered,
saved to history).  `SaveRecipeButton.jsx` then defaults a missing
`instructions` field to `[]` when saving. -/

/-- Shape of the `/predict` JSON payload consumed by `Home.jsx`:
per-variant lists of titles, ingredient lists and instruction lists
(`recipe`), plus the persistent image URL. -/
structure PredictResponse where
  title : List String
  ingredients : List (List String)
  recipe : List (List String)
  imageUrl : Option String
  deriving DecidableEq, Repr

inductive Classification
  | success (result : PredictResponse)
  | notRecipe
  | notFood
  deriving DecidableEq, Repr

/-- The classification branch of `handleUpload` (Home.jsx lines 62-77):
sentinel first title decides the outcome; anything else is success. -/
def classifyPredictResponse (data : PredictResponse) : Classification :=
  if data.title.head? = some "Not a valid recipe!" then .notRecipe
  else if data.title.head? = some "Not a valid food image!" then .notFood
  else .success data

/-- A variant set whose only instruction list is empty. -/
def emptyInstructionsResponse : PredictResponse :=
  { title := ["Tomato Pasta"], ingredients := [["tomato", "pasta"]],
    recipe := [[]], imageUrl := none }

/-- Counterexample to C4 as stated: a response whose instruction list is
empty but whose title is not a sentinel classifies as `success`, not as
`notRecipe`, so the code does return Success carrying an empty
instructions array. -/
theorem C4_counterexample :
    emptyInstructionsResponse.recipe = [[]] ∧
    classifyPredictResponse emptyInstructionsResponse =
      Classification.success emptyInstructionsResponse ∧
    classifyPredictResponse emptyInstructionsResponse ≠ Classification.notRecipe := by
  refine ⟨rfl, ?_, ?_⟩ <;> decide

/-- Claim C4 (amended): classification depends only on the sentinel
title strings — a response classifies as `notRecipe` exactly when its
first title is "Not a valid recipe!", as `notFood` exactly when its
first title is "Not a valid food image!" (and not the first sentinel),
and as `success` (even with empty ingredient or instruction lists or a
degenerate non-sentinel title) otherwise. -/
theorem C4_sentinel_classification (data : PredictResponse) :
    (classifyPredictResponse data = Classification.notRecipe ↔
      data.title.head? = some "Not a valid recipe!") ∧
    (classifyPredictResponse data = Classification.notFood ↔
      (data.title.head? ≠ some "Not a valid recipe!" ∧
       data.title.head? = some "Not a valid food image!")) ∧
    (classifyPredictResponse data = Classification.success data ↔
      (data.title.head? ≠ some "Not a valid recipe!" ∧
       data.title.head? ≠ some "Not a valid food image!")) := by
  unfold classifyPredictResponse
  by_cases h1 : data.title.head? = some "Not a valid recipe!" <;>
    by_cases h2 : data.title.head? = some "Not a valid food image!" <;>
      simp [h1, h2]

/-! ## Claim C10: the localStorage recipe history, from `Home.jsx` -/

/-- One entry of the `recipeHistory` localStorage value: the result
data plus the image preview and an ISO timestamp. -/
structure HistoryEntry where
  data : PredictResponse
  imagePreview : String
  timestamp : Nat
  deriving DecidableEq, Repr

/-- `saveToHistory` (Home.jsx lines 27-37): prepend the new entry and
keep the first 6. -/
def saveToHistory (history : List HistoryEntry) (entry : HistoryEntry) :
    List HistoryEntry :=
  (entry :: history).take 6

/-- The history effect of `handleUpload`: only the success branch calls
`saveToHistory`; both sentinel branches only show a toast. -/
def handleUploadHistory (history : List HistoryEntry) (data : PredictResponse)
    (image : String) (now : Nat) : List HistoryEntry :=
  match classifyPredictResponse data with
  | .success rd => saveToHistory history ⟨rd, image, now⟩
  | .notRecipe => history
  | .notFood => history

/-- Claim C10: the client-side history always holds at most 6 entries,
newest first — `saveToHistory` prepends and truncates to 6 — and an
upload changes the history only when the response classifies as a
(non-sentinel) success. -/
theorem C10_history_invariant :
    (∀ (h : List HistoryEntry) (e : HistoryEntry),
      (saveToHistory h e).length ≤ 6 ∧
      (saveToHistory h e).head? = some e ∧
      saveToHistory h e = (e :: h).take 6) ∧
    (∀ (h : List HistoryEntry) (data : PredictResponse) (img : String) (now : Nat),
      (data.title.head? = some "Not a valid recipe!" ∨
       data.title.head? = some "Not a valid food image!") →
        handleUploadHistory h data img now = h) ∧
    (∀ (h : List HistoryEntry) (data : PredictResponse) (img : String) (now : Nat),
      data.title.head? ≠ some "Not a valid recipe!" →
      data.title.head? ≠ some "Not a valid food image!" →
        handleUploadHistory h data img now = saveToHistory h ⟨data, img, now⟩) := by
  refine ⟨fun h e => ⟨?_, ?_, rfl⟩, fun h data img now hsent => ?_, fun h data img now h1 h2 => ?_⟩
  · show ((e :: h).take 6).length ≤ 6
    simp [List.length_take]
  · show ((e :: h).take 6).head? = some e
    rfl
  · unfold handleUploadHistory classifyPredictResponse
    rcases hsent with hs | hs
    · simp [hs]
    · by_cases h1 : data.title.head? = some "Not a valid recipe!" <;> simp [h1, hs]
  · unfold handleUploadHistory classifyPredictResponse
    simp [h1, h2]

/-- Witness for C10 at concrete inputs: a sentinel response leaves the
history unchanged, and a short history accepts a new head entry. -/
theorem C10_history_invariant_witness :
    (saveToHistory [] ⟨emptyInstructionsResponse, "blob", 0⟩).length ≤ 6 ∧
    handleUploadHistory []
      { title := ["Not a valid recipe!"], ingredients := [], recipe := [],
        imageUrl := none } "blob" 0 = [] :=
  ⟨(C10_history_invariant.1 [] ⟨emptyInstructionsResponse, "blob", 0⟩).1,
   C10_history_invariant.2.1 []
     { title := ["Not a valid recipe!"], ingredients := [], recipe := [],
       imageUrl := none } "blob" 0 (Or.inl rfl)⟩

/-! ## RateLimiter

Modelled from the spec: the Flask-Limiter configuration (global
10/minute, `/predict` 5/minute) is documented in the Phase 1 summary,
but `Foodimg2Ing/routes.py` itself is not under `src/`.  Spec §4.2: a
fixed budget over a rolling window, checked before any expensive work;
a denial is terminal for that request (no queuing, no internal retry),
surfaced as 429. -/

/-- Sliding-window admission check for one identity: the request at
`now` is admitted when fewer than `limit` recorded requests fall inside
the trailing window. -/
def allowRequest (window limit : Nat) (hist : List Nat) (now : Nat) : Bool :=
  decide ((hist.filter (fun t => now < t + window)).length < limit)

/-- The `/predict` route for a single identity: each request is first
recorded and admission-checked; admitted requests return whatever the
engine returns for them (the limiter does not alter it), denied
requests return 429 immediately. -/
def predictRoute (window limit : Nat) (engine : Nat → Nat) (times : List Nat) :
    List Nat × List Nat :=
  times.foldl (fun acc t =>
    if allowRequest window limit acc.1 t then (acc.1 ++ [t], acc.2 ++ [engine t])
    else (acc.1 ++ [t], acc.2 ++ [429])) ([], [])

/-- Claim C5: six `/predict` calls from one identity inside one rate
window: the first five receive the engine's own status, whatever it is
(success or failure, independent of the limiter), and the sixth
receives 429; the denial is final — the model performs no queueing or
retry for it. -/
theorem C5_sixth_call_rate_limited (window t1 t2 t3 t4 t5 t6 : Nat)
    (engine : Nat → Nat)
    (h12 : t1 ≤ t2) (h23 : t2 ≤ t3) (h34 : t3 ≤ t4) (h45 : t4 ≤ t5)
    (h56 : t5 ≤ t6) (hwin : t6 < t1 + window) :
    (predictRoute window 5 engine [t1, t2, t3, t4, t5, t6]).2 =
      [engine t1, engine t2, engine t3, engine t4, engine t5, 429] := by
  have hlow : ∀ (hist : List Nat) (now : Nat), hist.length ≤ 4 →
      allowRequest window 5 hist now = true := by
    intro hist now hlen
    unfold allowRequest
    rw [decide_eq_true_eq]
    have := List.length_filter_le (fun t => decide (now < t + window)) hist
    omega
  have ha1 : allowRequest window 5 [] t1 = true := hlow [] t1 (by simp)
  have ha2 : allowRequest window 5 [t1] t2 = true := hlow [t1] t2 (by simp)
  have ha3 : allowRequest window 5 [t1, t2] t3 = true := hlow [t1, t2] t3 (by simp)
  have ha4 : allowRequest window 5 [t1, t2, t3] t4 = true := hlow [t1, t2, t3] t4 (by simp)
  have ha5 : allowRequest window 5 [t1, t2, t3, t4] t5 :=
    hlow [t1, t2, t3, t4] t5 (by simp)
  have ha6 : allowRequest window 5 [t1, t2, t3, t4, t5] t6 = false := by
    unfold allowRequest
    rw [decide_eq_false_iff_not]
    have hf : List.filter (fun t => decide (t6 < t + window)) [t1, t2, t3, t4, t5] =
        [t1, t2, t3, t4, t5] := by
      rw [List.filter_eq_self]
      intro a ha
      rw [decide_eq_true_eq]
      simp only [List.mem_cons, List.not_mem_nil, or_false] at ha
      rcases ha with rfl | rfl | rfl | rfl | rfl <;> omega
    rw [hf]
    simp
  simp [predictRoute, List.foldl, ha1, ha2, ha3, ha4, ha5, ha6]

/-- Witness for C5: six calls at seconds 0..5 within a 60-second
window, with an engine that always returns 200. -/
theorem C5_sixth_call_rate_limited_witness :
    (predictRoute 60 5 (fun _ => 200) [0, 1, 2, 3, 4, 5]).2 =
      [200, 200, 200, 200, 200, 429] :=
  C5_sixth_call_rate_limited 60 0 1 2 3 4 5 (fun _ => 200)
    (by decide) (by decide) (by decide) (by decide) (by decide) (by decide)

/-! ## RecipeStore visibility and deletion

Modelled from the spec: the backend recipe endpoints are not under
`src/`.  Spec §4.4: `get` succeeds for the owner unconditionally and
for any viewer only if `visibility = public`, otherwise `Forbidden`;
unknown ids give `NotFound`.  `delete` requires ownership and cascades
to Rating and Favorite rows in the same transaction. -/

inductive GetResult
  | ok (r : Recipe)
  | notFound
  | forbidden
  deriving DecidableEq, Repr

def getRecipe (db : DB) (rid viewer : Nat) : GetResult :=
  match findRecipe db rid with
  | none => .notFound
  | some r =>
    if viewer == r.ownerId then .ok r
    else if r.isPublic then .ok r
    else .forbidden

/-- Claim C6: a private recipe is `Forbidden` for every non-owner and
served to its owner; a public recipe is served to any viewer; and the
outcome never depends on the recipe's ratings. -/
theorem C6_private_visibility (db : DB) (rid viewer : Nat) (r : Recipe)
    (hfind : findRecipe db rid = some r) :
    (r.isPublic = false → viewer ≠ r.ownerId →
      getRecipe db rid viewer = GetResult.forbidden) ∧
    getRecipe db rid r.ownerId = GetResult.ok r ∧
    (r.isPublic = true → getRecipe db rid viewer = GetResult.ok r) ∧
    (∀ rs : List Rating,
      getRecipe { db with ratings := rs } rid viewer = getRecipe db rid viewer) := by
  refine ⟨?_, ?_, ?_, fun rs => rfl⟩
  · intro hpub hne
    simp [getRecipe, hfind, hpub, hne]
  · simp [getRecipe, hfind]
  · intro hpub
    by_cases hv : viewer = r.ownerId <;> simp [getRecipe, hfind, hpub, hv]

/-- A private recipe owned by user 1. -/
def c6Recipe : Recipe :=
  { id := 9, ownerId := 1, title := "Secret", ingredients := ["x"],
    instructions := ["y"], imageUrl := none, isPublic := false,
    avgRating := none, ratingCount := 0 }

def c6DB : DB :=
  { recipes := [c6Recipe], ratings := [], favorites := [] }

/-- Witness for C6: viewer 2 is forbidden, owner 1 is served, and
adding a rating row changes nothing. -/
theorem C6_private_visibility_witness :
    getRecipe c6DB 9 2 = GetResult.forbidden ∧
    getRecipe c6DB 9 1 = GetResult.ok c6Recipe ∧
    getRecipe { c6DB with ratings := [⟨9, 2, 5, none⟩] } 9 2 = getRecipe c6DB 9 2 :=
  ⟨(C6_private_visibility c6DB 9 2 c6Recipe rfl).1 rfl (by decide),
   (C6_private_visibility c6DB 9 1 c6Recipe rfl).2.1,
   (C6_private_visibility c6DB 9 2 c6Recipe rfl).2.2.2 [⟨9, 2, 5, none⟩]⟩

/-! ## Claim C7: undefined average renders as a no-ratings state

The aggregate side is spec-modelled (`aggAvg` above); the display is
embedded from `RecipeDetail.jsx` line 223:
`recipe.average_rating ? recipe.average_rating.toFixed(1) : 'New'`
(JavaScript falsiness covers both null and 0). -/

inductive AvgDisplay
  | newBadge
  | stars (value : ℚ)
  deriving DecidableEq, Repr

def renderAverage (avg : Option ℚ) : AvgDisplay :=
  match avg with
  | none => .newBadge
  | some a => if a = 0 then .newBadge else .stars a

/-- Claim C7: with zero live ratings, the stored `average_rating` is
undefined (`none`), not zero, and the detail page renders the "New"
no-ratings badge rather than a zero-star value. -/
theorem C7_zero_ratings_renders_new (db : DB) (rid : Nat) (r : Recipe)
    (hinv : AggInv db) (hfind : findRecipe db rid = some r)
    (hzero : aggCount db.ratings rid = 0) :
    r.avgRating = none ∧
    r.avgRating ≠ some 0 ∧
    renderAverage r.avgRating = AvgDisplay.newBadge := by
  have hmem : r ∈ db.recipes := List.mem_of_find?_eq_some hfind
  have hpr := List.find?_some hfind
  have hrid : r.id = rid := by simpa using hpr
  have havg := (hinv r hmem).1
  rw [hrid] at havg
  rw [havg]
  unfold aggAvg
  rw [if_pos hzero]
  exact ⟨rfl, by simp, rfl⟩

/-- Witness for C7 at the unrated demo recipe. -/
theorem C7_zero_ratings_renders_new_witness :
    demoRecipe.avgRating = none ∧
    demoRecipe.avgRating ≠ some 0 ∧
    renderAverage demoRecipe.avgRating = AvgDisplay.newBadge :=
  C7_zero_ratings_renders_new demoDB 1 demoRecipe (by decide) rfl rfl

/-! ## Claim C8: delete cascades and leaves NotFound -/

inductive DeleteResult
  | deleted
  | forbiddenDelete
  | missing
  deriving DecidableEq, Repr

/-- `delete(id, caller)`: only the owner may delete; on success the
recipe row and all Rating and Favorite rows referencing it go in the
same transaction (one atomic state transition). -/
def deleteRecipe (db : DB) (rid caller : Nat) : DB × DeleteResult :=
  match findRecipe db rid with
  | none => (db, .missing)
  | some r =>
    if caller == r.ownerId then
      ({ recipes := db.recipes.filter (fun x => !(x.id == rid)),
         ratings := db.ratings.filter (fun rt => !(rt.recipeId == rid)),
         favorites := db.favorites.filter (fun f => !(f.2 == rid)) },
       .deleted)
    else (db, .forbiddenDelete)

/-- Claim C8: a successful owner delete removes every Rating and
Favorite row referencing the recipe in the same transition, and every
subsequent `get` on the id answers `NotFound` for any viewer. -/
theorem C8_delete_cascades (db : DB) (rid : Nat) (r : Recipe)
    (hfind : findRecipe db rid = some r) :
    (deleteRecipe db rid r.ownerId).2 = DeleteResult.deleted ∧
    (∀ rt ∈ (deleteRecipe db rid r.ownerId).1.ratings, rt.recipeId ≠ rid) ∧
    (∀ f ∈ (deleteRecipe db rid r.ownerId).1.favorites, f.2 ≠ rid) ∧
    (∀ viewer, getRecipe (deleteRecipe db rid r.ownerId).1 rid viewer =
      GetResult.notFound) := by
  have hstep : deleteRecipe db rid r.ownerId =
      ({ recipes := db.recipes.filter (fun x => !(x.id == rid)),
         ratings := db.ratings.filter (fun rt => !(rt.recipeId == rid)),
         favorites := db.favorites.filter (fun f => !(f.2 == rid)) },
       DeleteResult.deleted) := by
    unfold deleteRecipe
    rw [hfind]
    simp
  rw [hstep]
  refine ⟨rfl, ?_, ?_, ?_⟩
  · intro rt hrt
    have := (List.mem_filter.mp hrt).2
    simpa using this
  · intro f hf
    have := (List.mem_filter.mp hf).2
    simpa using this
  · intro viewer
    have hnone : findRecipe
        ({ recipes := db.recipes.filter (fun x => !(x.id == rid)),
           ratings := db.ratings.filter (fun rt => !(rt.recipeId == rid)),
           favorites := db.favorites.filter (fun f => !(f.2 == rid)) } : DB) rid = none := by
      unfold findRecipe
      rw [List.find?_eq_none]
      intro x hx
      have := (List.mem_filter.mp hx).2
      simpa using this
    unfold getRecipe
    rw [hnone]

/-- Store for the C8 witness: recipe 9 with a rating and a favorite,
next to an unrelated recipe 3. -/
def c8DB : DB :=
  { recipes := [c6Recipe,
      { id := 3, ownerId := 2, title := "Other", ingredients := [],
        instructions := [], imageUrl := none, isPublic := true,
        avgRating := none, ratingCount := 0 }],
    ratings := [⟨9, 2, 5, none⟩, ⟨3, 1, 4, none⟩],
    favorites := [(2, 9), (1, 3)] }

/-- Witness for C8: owner 1 deletes recipe 9; the delete succeeds and a
later fetch by viewer 2 gets NotFound. -/
theorem C8_delete_cascades_witness :
    (deleteRecipe c8DB 9 1).2 = DeleteResult.deleted ∧
    getRecipe (deleteRecipe c8DB 9 1).1 9 2 = GetResult.notFound :=
  ⟨(C8_delete_cascades c8DB 9 c6Recipe rfl).1,
   (C8_delete_cascades c8DB 9 c6Recipe rfl).2.2.2 2⟩

/-! ## Claim C9: uniform login failure

Modelled from the spec: `Foodimg2Ing/auth.py` is not under `src/`.
Spec §4.1: login failure is reported uniformly as
`AuthError.InvalidCredentials` whether the email is unknown or the
password is wrong, preventing account enumeration; the client sees a
generic 401 either way.  Password checking (bcrypt) is abstracted as a
verify function. -/

structure UserAccount where
  id : Nat
  email : String
  passwordHash : String
  name : String
  deriving DecidableEq, Repr

inductive LoginResult
  | loggedIn (userId : Nat)
  | invalidCredentials
  deriving DecidableEq, Repr

def login (verify : String → String → Bool) (users : List UserAccount)
    (email pw : String) : LoginResult :=
  match users.find? (fun u => u.email == email) with
  | none => .invalidCredentials
  | some u =>
    if verify pw u.passwordHash then .loggedIn u.id else .invalidCredentials

/-- Claim C9: an unknown email and a known email with a wrong password
produce the very same `invalidCredentials` outcome — the responses are
observably identical, revealing nothing about whether the email
exists. -/
theorem C9_uniform_login_failure (verify : String → String → Bool)
    (users : List UserAccount) (email1 pw1 email2 pw2 : String) (u : UserAccount)
    (h1 : users.find? (fun x => x.email == email1) = none)
    (h2 : users.find? (fun x => x.email == email2) = some u)
    (h3 : verify pw2 u.passwordHash = false) :
    login verify users email1 pw1 = LoginResult.invalidCredentials ∧
    login verify users email2 pw2 = LoginResult.invalidCredentials ∧
    login verify users email1 pw1 = login verify users email2 pw2 := by
  unfold login
  rw [h1, h2]
  simp [h3]

/-- Witness for C9: one registered account, one ghost email, one wrong
password. -/
theorem C9_uniform_login_failure_witness :
    login (fun p h => p == h) [⟨1, "a@b.c", "hunter2", "A"⟩] "ghost@b.c" "pw" =
      LoginResult.invalidCredentials ∧
    login (fun p h => p == h) [⟨1, "a@b.c", "hunter2", "A"⟩] "a@b.c" "wrong" =
      LoginResult.invalidCredentials ∧
    login (fun p h => p == h) [⟨1, "a@b.c", "hunter2", "A"⟩] "ghost@b.c" "pw" =
      login (fun p h => p == h) [⟨1, "a@b.c", "hunter2", "A"⟩] "a@b.c" "wrong" :=
  C9_uniform_login_failure (fun p h => p == h) [⟨1, "a@b.c", "hunter2", "A"⟩]
    "ghost@b.c" "pw" "a@b.c" "wrong" ⟨1, "a@b.c", "hunter2", "A"⟩
    (by decide) (by decide) (by decide)

end RecipeGen
